import Mathlib

/-!
Verification of the optimizer parameter-scaling engine of the unit-scaling
repository, as implemented in the analysis notebook `sgd_scaling.ipynb`.

The embedding models:
* a trainable parameter as carried by the engine: its `mup_type` role tag
  (a Python string attribute), its tensor `shape`, and its depth index;
* `lr_scale_func_sgd` / `lr_scale_func_sgd_inner`: the momentum-style (SGD)
  role scale function from the notebook's "corrected library implementation";
* `gen_param_groups`: the notebook's zip-based parameter-group builder;
* the group builder with weight-decay resolution (`build_groups`), modelled
  from the spec because `uu.optim.scaled_parameters` is library code that is
  not part of the analysed sources.

Python floats are idealised as exact real arithmetic: `x ** 0.5` becomes
`Real.sqrt x` and `x ** -0.5` becomes `(Real.sqrt x)⁻¹` (with the
`ZeroDivisionError` Python raises for `0 ** -0.5` made explicit).  A Python
`assert False, msg` or raised exception becomes an `Except.error`.
-/

/-- A trainable parameter as seen by the scaling engine: the `mup_type` role
tag attached to the tensor (a Python string), the tensor shape, and the
depth index consumed by the depth-scale function. -/
structure Param where
  mup_type : String
  shape : List Nat
  depth_index : Nat
deriving DecidableEq

/-- Modelled from the spec: `uu.optim.lr_scale_for_depth` is library code not
among the analysed sources.  Per §4.2 the depth scale is a pluggable policy
mapping the parameter's depth index to a scalar multiplier, so it is taken
here as an arbitrary function `dscale` applied to the depth index. -/
noncomputable def lr_scale_for_depth (dscale : Nat → ℝ) (p : Param) : ℝ :=
  dscale p.depth_index

/-- Modelled from the spec: `uu.optim._get_fan_in` is library code not among
the analysed sources.  Per §3 the fan-in is the size of the dimension
contracted in the forward matrix product — for the `(fan_out, fan_in)`
weight layout used throughout the notebook this is `shape[1]` — and per §7 a
weight with fewer than two dimensions is a fatal configuration error. -/
def get_fan_in (p : Param) : Except String Nat :=
  match p.shape with
  | _ :: fan_in :: _ => .ok fan_in
  | _ => .error "fan_in undefined: parameter has fewer than two dimensions"

/-- The momentum-style role scale function `lr_scale_func_sgd_inner` from the
notebook: depth scale times `shape[0]` for bias/norm, depth scale times
`fan_in ** -0.5` (constraint `None`) or `fan_in ** 0.5` (constraint
`"to_output_scale"`) for weights, bare depth scale for output, and a failed
assertion for any other role or constraint. -/
noncomputable def lr_scale_func_sgd_inner (dscale : Nat → ℝ) (readout_constraint : Option String)
    (p : Param) : Except String ℝ :=
  let scale := lr_scale_for_depth dscale p
  if p.mup_type = "bias" ∨ p.mup_type = "norm" then
    match p.shape with
    | [] => .error "IndexError: shape[0] on a zero-dimensional parameter"
    | n :: _ => .ok (scale * n)
  else if p.mup_type = "weight" then
    match readout_constraint with
    | none =>
      match get_fan_in p with
      | .error e => .error e
      | .ok fan_in =>
        if fan_in = 0 then .error "ZeroDivisionError: 0 cannot be raised to a negative power"
        else .ok (scale * (Real.sqrt fan_in)⁻¹)
    | some c =>
      if c = "to_output_scale" then
        match get_fan_in p with
        | .error e => .error e
        | .ok fan_in => .ok (scale * Real.sqrt fan_in)
      else .error ("Unhandled readout constraint: " ++ c)
  else if p.mup_type = "output" then
    .ok scale
  else
    .error ("Unexpected mup_type " ++ p.mup_type)

/-- The closure returned by `lr_scale_func_sgd readout_constraint` in the
notebook is `lr_scale_func_sgd_inner` with the constraint captured. -/
noncomputable def lr_scale_func_sgd (dscale : Nat → ℝ) (readout_constraint : Option String) :
    Param → Except String ℝ :=
  lr_scale_func_sgd_inner dscale readout_constraint

/-- A parameter group as emitted by `gen_param_groups`: the dict
`{"params": [params], "lr": base_lr * lr_mod}`.  The learning-rate type is a
type parameter so that the structural claims can be stated over exact
(decidable) scalars. -/
structure ParamGroup (α : Type) where
  params : List Param
  lr : α
deriving DecidableEq

/-- The notebook's group builder `gen_param_groups(model, base_lr, lr_mods)`:
it zips the model's parameter list against the multiplier list and emits one
singleton group per zipped pair. -/
def gen_param_groups {α : Type} [Mul α] (parameters : List Param) (base_lr : α)
    (lr_mods : List α) : List (ParamGroup α) :=
  (parameters.zip lr_mods).map (fun pm => { params := [pm.1], lr := base_lr * pm.2 })

/-- A parameter group with the weight decay resolved, as produced by the
spec's Parameter Group Builder (§4.7). -/
structure GroupWD where
  params : List Param
  lr : ℝ
  weight_decay : ℝ

/-- The four recognised role tags of the data model (§3). -/
def recognised_role (r : String) : Prop :=
  r = "weight" ∨ r = "bias" ∨ r = "norm" ∨ r = "output"

instance (r : String) : Decidable (recognised_role r) := by
  unfold recognised_role; infer_instance

/-- Modelled from the spec: `uu.optim.scaled_parameters` is library code not
among the analysed sources.  Per §4.7 the builder resolves each parameter's
role (failing on an unrecognised role unless `allow_unrecognized`, in which
case §4.1 fixes the multiplier to 1), computes `mult = role_scale_fn param`,
and emits a singleton group with `lr = base_lr * mult` and the weight decay
resolved per §4.6 (independent: the nominal rate; coupled: scaled by
`mult`). -/
noncomputable def build_groups (parameters : List Param) (role_scale_fn : Param → Except String ℝ)
    (base_lr base_weight_decay : ℝ) (independent_wd allow_unrecognized : Bool) :
    Except String (List GroupWD) :=
  match parameters with
  | [] => .ok []
  | p :: rest =>
    match
      (if recognised_role p.mup_type then role_scale_fn p
       else if allow_unrecognized then .ok 1
       else .error ("unrecognized role on parameter: " ++ p.mup_type)) with
    | .error e => .error e
    | .ok mult =>
      match build_groups rest role_scale_fn base_lr base_weight_decay
          independent_wd allow_unrecognized with
      | .error e => .error e
      | .ok gs =>
        .ok ({ params := [p], lr := base_lr * mult,
               weight_decay :=
                 if independent_wd then base_weight_decay
                 else base_weight_decay * mult } :: gs)

example : get_fan_in { mup_type := "weight", shape := [7, 5], depth_index := 0 } = .ok 5 := by
  rfl

/-- Square root of four, used to evaluate the scale function at fan-in 4. -/
lemma sqrt_four : Real.sqrt 4 = 2 := by
  rw [show (4:ℝ) = 2 ^ 2 by norm_num, Real.sqrt_sq (by norm_num : (0:ℝ) ≤ 2)]

/-- C3: for a parameter with role `bias` or `norm` and one-dimensional shape
`[n]`, the momentum-style role scale function returns the depth scale of the
parameter multiplied by `n`, the parameter's own element count along its sole
dimension, independently of the readout constraint. -/
theorem c3_bias_norm_multiplier (dscale : Nat → ℝ) (rc : Option String) (p : Param)
    (n : Nat) (hrole : p.mup_type = "bias" ∨ p.mup_type = "norm") (hshape : p.shape = [n]) :
    lr_scale_func_sgd_inner dscale rc p = .ok (lr_scale_for_depth dscale p * n) := by
  rcases hrole with h | h <;> simp [lr_scale_func_sgd_inner, h, hshape]

theorem c3_bias_norm_multiplier_witness :
    lr_scale_func_sgd_inner (fun _ => (1:ℝ)) none
      { mup_type := "bias", shape := [7], depth_index := 0 } = .ok 7 := by
  rw [c3_bias_norm_multiplier (fun _ => (1:ℝ)) none
      { mup_type := "bias", shape := [7], depth_index := 0 } 7 (Or.inl rfl) rfl]
  simp [lr_scale_for_depth]

/-- C4: for a parameter with role `output`, the momentum-style role scale
function returns exactly the depth scale of the parameter, with no fan-in or
fan-out dependence, for every value of the readout constraint. -/
theorem c4_output_multiplier (dscale : Nat → ℝ) (rc : Option String) (p : Param)
    (hrole : p.mup_type = "output") :
    lr_scale_func_sgd_inner dscale rc p = .ok (lr_scale_for_depth dscale p) := by
  simp [lr_scale_func_sgd_inner, hrole]

theorem c4_output_multiplier_witness :
    lr_scale_func_sgd_inner (fun _ => (1:ℝ)) (some "to_output_scale")
      { mup_type := "output", shape := [11, 7], depth_index := 2 } = .ok 1 := by
  rw [c4_output_multiplier (fun _ => (1:ℝ)) (some "to_output_scale")
      { mup_type := "output", shape := [11, 7], depth_index := 2 } rfl]
  rfl

/-- C7: for a parameter whose role is none of `weight`, `bias`, `norm`,
`output`, the momentum-style role scale function fails with the
`Unexpected mup_type` assertion instead of returning any multiplier (so in
particular it never silently defaults the multiplier to 1). -/
theorem c7_unrecognised_role_error (dscale : Nat → ℝ) (rc : Option String) (p : Param)
    (hrole : ¬ recognised_role p.mup_type) :
    lr_scale_func_sgd_inner dscale rc p = .error ("Unexpected mup_type " ++ p.mup_type) := by
  unfold recognised_role at hrole
  push_neg at hrole
  obtain ⟨hw, hb, hn, ho⟩ := hrole
  simp [lr_scale_func_sgd_inner, hw, hb, hn, ho]

theorem c7_unrecognised_role_error_witness :
    lr_scale_func_sgd_inner (fun _ => (1:ℝ)) none
      { mup_type := "emb", shape := [5, 7], depth_index := 0 }
      = .error ("Unexpected mup_type " ++ "emb") := by
  exact c7_unrecognised_role_error (fun _ => (1:ℝ)) none
    { mup_type := "emb", shape := [5, 7], depth_index := 0 } (by decide)

/-- C1 (amended): for a weight-role parameter the momentum-style role scale
function returns `depth_scale(param) * fan_in ** e` with `e = +0.5` when
`readout_constraint = to_output_scale` and `e = -0.5` when
`readout_constraint = none` (for nonzero fan-in) — the exponents attached to
the two constraint values are the reverse of the ones the claim states. -/
theorem c1_weight_fan_in_exponents (dscale : Nat → ℝ) (p : Param)
    (fan_out fan_in : Nat) (rest : List Nat) (hrole : p.mup_type = "weight")
    (hshape : p.shape = fan_out :: fan_in :: rest) (hfi : fan_in ≠ 0) :
    lr_scale_func_sgd_inner dscale (some "to_output_scale") p
        = .ok (lr_scale_for_depth dscale p * Real.sqrt fan_in) ∧
    lr_scale_func_sgd_inner dscale none p
        = .ok (lr_scale_for_depth dscale p * (Real.sqrt fan_in)⁻¹) := by
  constructor <;> simp [lr_scale_func_sgd_inner, hrole, get_fan_in, hshape, hfi]

theorem c1_weight_fan_in_exponents_witness :
    lr_scale_func_sgd_inner (fun _ => (1:ℝ)) (some "to_output_scale")
      { mup_type := "weight", shape := [3, 4], depth_index := 0 } = .ok 2 ∧
    lr_scale_func_sgd_inner (fun _ => (1:ℝ)) none
      { mup_type := "weight", shape := [3, 4], depth_index := 0 } = .ok 2⁻¹ := by
  obtain ⟨h1, h2⟩ := c1_weight_fan_in_exponents (fun _ => (1:ℝ))
    { mup_type := "weight", shape := [3, 4], depth_index := 0 } 3 4 [] rfl rfl
    (by norm_num)
  rw [h1, h2]
  norm_num [lr_scale_for_depth, sqrt_four]

/-- C1 counterexample: at the concrete weight parameter of shape `[3, 4]`
(fan-in 4), unit depth scale and `readout_constraint = to_output_scale`, the
code returns `sqrt 4 = 2`, not the `4 ** -0.5 = 1/2` the claim demands. -/
theorem c1_claimed_exponents_counterexample :
    lr_scale_func_sgd_inner (fun _ => (1:ℝ)) (some "to_output_scale")
      { mup_type := "weight", shape := [3, 4], depth_index := 0 }
      ≠ .ok ((Real.sqrt 4)⁻¹) := by
  simp [lr_scale_func_sgd_inner, lr_scale_for_depth, get_fan_in, sqrt_four]
  norm_num

/-- The weight branch of the scale function under constraint `None` returns
the depth scale divided by the square root of the fan-in. -/
lemma weight_scale_constraint_none (dscale : Nat → ℝ) (p : Param)
    (fan_out fan_in : Nat) (rest : List Nat) (hrole : p.mup_type = "weight")
    (hshape : p.shape = fan_out :: fan_in :: rest) (hfi : fan_in ≠ 0) :
    lr_scale_func_sgd_inner dscale none p
      = .ok (lr_scale_for_depth dscale p * (Real.sqrt fan_in)⁻¹) := by
  simp [lr_scale_func_sgd_inner, hrole, get_fan_in, hshape, hfi]

/-- The weight branch of the scale function under constraint
`"to_output_scale"` returns the depth scale times the square root of the
fan-in. -/
lemma weight_scale_constraint_tos (dscale : Nat → ℝ) (p : Param)
    (fan_out fan_in : Nat) (rest : List Nat) (hrole : p.mup_type = "weight")
    (hshape : p.shape = fan_out :: fan_in :: rest) :
    lr_scale_func_sgd_inner dscale (some "to_output_scale") p
      = .ok (lr_scale_for_depth dscale p * Real.sqrt fan_in) := by
  simp [lr_scale_func_sgd_inner, hrole, get_fan_in, hshape]

/-- The square root of a natural number that is at least two exceeds one. -/
lemma one_lt_sqrt_of_two_le (n : Nat) (h : 2 ≤ n) : 1 < Real.sqrt n := by
  rw [show (1:ℝ) = Real.sqrt 1 by simp]
  exact Real.sqrt_lt_sqrt (by norm_num) (by exact_mod_cast by omega)

/-- C5 (amended): switching the readout constraint between `None` and
`"to_output_scale"` changes the multiplier for every weight-role parameter
whose fan-in is at least 2 and whose depth scale is nonzero (for fan-in 1 the
two constraint values coincide), while the multipliers of bias-, norm- and
output-role parameters do not depend on that choice. -/
theorem c5_readout_constraint_frame_effect (dscale : Nat → ℝ) (p : Param) :
    (∀ fan_out fan_in : Nat, ∀ rest : List Nat, p.mup_type = "weight" →
        p.shape = fan_out :: fan_in :: rest → 2 ≤ fan_in →
        dscale p.depth_index ≠ 0 →
        lr_scale_func_sgd_inner dscale none p
          ≠ lr_scale_func_sgd_inner dscale (some "to_output_scale") p) ∧
    (p.mup_type = "bias" ∨ p.mup_type = "norm" ∨ p.mup_type = "output" →
        lr_scale_func_sgd_inner dscale none p
          = lr_scale_func_sgd_inner dscale (some "to_output_scale") p) := by
  constructor
  · intro fan_out fan_in rest hrole hshape hfi hds heq
    rw [weight_scale_constraint_none dscale p fan_out fan_in rest hrole hshape
          (by omega),
        weight_scale_constraint_tos dscale p fan_out fan_in rest hrole hshape] at heq
    have hds2 : lr_scale_for_depth dscale p ≠ 0 := hds
    have hval : (Real.sqrt fan_in)⁻¹ = Real.sqrt fan_in :=
      mul_left_cancel₀ hds2 (Except.ok.inj heq)
    have hgt : 1 < Real.sqrt fan_in := one_lt_sqrt_of_two_le fan_in hfi
    have hlt : (Real.sqrt fan_in)⁻¹ < Real.sqrt fan_in :=
      lt_trans (inv_lt_one_of_one_lt₀ hgt) hgt
    rw [hval] at hlt
    exact lt_irrefl _ hlt
  · rintro (h | h | h) <;> simp [lr_scale_func_sgd_inner, h]

theorem c5_readout_constraint_frame_effect_witness :
    lr_scale_func_sgd_inner (fun _ => (1:ℝ)) none
        { mup_type := "weight", shape := [7, 5], depth_index := 0 }
      ≠ lr_scale_func_sgd_inner (fun _ => (1:ℝ)) (some "to_output_scale")
        { mup_type := "weight", shape := [7, 5], depth_index := 0 } ∧
    lr_scale_func_sgd_inner (fun _ => (1:ℝ)) none
        { mup_type := "output", shape := [11, 7], depth_index := 2 }
      = lr_scale_func_sgd_inner (fun _ => (1:ℝ)) (some "to_output_scale")
        { mup_type := "output", shape := [11, 7], depth_index := 2 } := by
  constructor
  · exact (c5_readout_constraint_frame_effect (fun _ => (1:ℝ))
      { mup_type := "weight", shape := [7, 5], depth_index := 0 }).1
      7 5 [] rfl rfl (by norm_num) (by norm_num)
  · exact (c5_readout_constraint_frame_effect (fun _ => (1:ℝ))
      { mup_type := "output", shape := [11, 7], depth_index := 2 }).2
      (Or.inr (Or.inr rfl))

/-- C5 counterexample: a weight-role parameter with fan-in 1 (shape `[5, 1]`)
receives the same multiplier under both readout constraints, so the
constraint choice does not change the multiplier for every weight-role
parameter. -/
theorem c5_fan_in_one_counterexample :
    lr_scale_func_sgd_inner (fun _ => (1:ℝ)) none
        { mup_type := "weight", shape := [5, 1], depth_index := 0 }
      = lr_scale_func_sgd_inner (fun _ => (1:ℝ)) (some "to_output_scale")
        { mup_type := "weight", shape := [5, 1], depth_index := 0 } := by
  simp [lr_scale_func_sgd_inner, get_fan_in]

/-- First components of a zip are the first list truncated to the second
list's length. -/
lemma zip_map_fst_take {α β : Type} :
    ∀ (l1 : List α) (l2 : List β), (l1.zip l2).map Prod.fst = l1.take l2.length
  | [], _ => by simp
  | _ :: _, [] => by simp
  | a :: t1, b :: t2 => by simp [zip_map_fst_take t1 t2]

/-- Second components of a zip are the second list truncated to the first
list's length. -/
lemma zip_map_snd_take {α β : Type} :
    ∀ (l1 : List α) (l2 : List β), (l1.zip l2).map Prod.snd = l2.take l1.length
  | [], _ => by simp
  | _ :: _, [] => by simp
  | a :: t1, b :: t2 => by simp [zip_map_snd_take t1 t2]

/-- Zipping ignores everything of the first list beyond the second list's
length. -/
lemma zip_eq_zip_take {α β : Type} :
    ∀ (l1 : List α) (l2 : List β), l1.zip l2 = (l1.take l2.length).zip l2
  | [], _ => by simp
  | _ :: _, [] => by simp
  | a :: t1, b :: t2 => by simpa using zip_eq_zip_take t1 t2

/-- Flattening a list of singletons recovers the original list. -/
lemma flatten_map_singleton {α : Type} :
    ∀ l : List α, (l.map (fun a => [a])).flatten = l
  | [] => rfl
  | a :: t => by simp [flatten_map_singleton t]

/-- C6 (amended): whenever the multiplier list is at least as long as the
parameter list, `gen_param_groups` emits exactly one singleton group per
parameter, in order, with `lr = base_lr * mult` taken from that parameter's
multiplier, and the concatenation of the emitted groups' parameter lists is
exactly the input parameter list (no duplicates, no omissions), whatever the
roles are. -/
theorem c6_partition_property (ps : List Param) (b : ℚ) (ms : List ℚ)
    (h : ps.length ≤ ms.length) :
    (gen_param_groups ps b ms).length = ps.length ∧
    (gen_param_groups ps b ms).map (fun g => g.params) = ps.map (fun p => [p]) ∧
    (gen_param_groups ps b ms).map (fun g => g.lr)
      = (ms.take ps.length).map (fun m => b * m) ∧
    ((gen_param_groups ps b ms).map (fun g => g.params)).flatten = ps := by
  have hparams : (gen_param_groups ps b ms).map (fun g => g.params)
      = ps.map (fun p => [p]) := by
    have h1 : (gen_param_groups ps b ms).map (fun g => g.params)
        = ((ps.zip ms).map Prod.fst).map (fun p => [p]) := by
      simp [gen_param_groups, List.map_map, Function.comp]
    rw [h1, List.map_fst_zip ps ms h]
  refine ⟨?_, hparams, ?_, ?_⟩
  · simp [gen_param_groups]
    omega
  · have h2 : (gen_param_groups ps b ms).map (fun g => g.lr)
        = ((ps.zip ms).map Prod.snd).map (fun m => b * m) := by
      simp [gen_param_groups, List.map_map, Function.comp]
    rw [h2, zip_map_snd_take ps ms]
  · rw [hparams, flatten_map_singleton]

theorem c6_partition_property_witness :
    ((gen_param_groups
        [{ mup_type := "weight", shape := [7, 5], depth_index := 0 },
         { mup_type := "output", shape := [11, 7], depth_index := 2 }]
        (2:ℚ) [5, 7]).map (fun g => g.params)).flatten
      = [{ mup_type := "weight", shape := [7, 5], depth_index := 0 },
         { mup_type := "output", shape := [11, 7], depth_index := 2 }] ∧
    (gen_param_groups
        [{ mup_type := "weight", shape := [7, 5], depth_index := 0 },
         { mup_type := "output", shape := [11, 7], depth_index := 2 }]
        (2:ℚ) [5, 7]).map (fun g => g.lr) = [2 * 5, 2 * 7] := by
  have h := c6_partition_property
    [{ mup_type := "weight", shape := [7, 5], depth_index := 0 },
     { mup_type := "output", shape := [11, 7], depth_index := 2 }]
    2 [5, 7] (by norm_num)
  refine ⟨h.2.2.2, ?_⟩
  rw [h.2.2.1]
  rfl

/-- C6 counterexample: with two parameters but a single multiplier, the
emitted groups cover only the first parameter, so the union of the groups'
parameter lists is not the input parameter list. -/
theorem c6_truncation_counterexample :
    ((gen_param_groups
        [{ mup_type := "weight", shape := [7, 5], depth_index := 0 },
         { mup_type := "weight", shape := [7, 7], depth_index := 1 }]
        (1:ℚ) [2]).map (fun g => g.params)).flatten
      ≠ [{ mup_type := "weight", shape := [7, 5], depth_index := 0 },
         { mup_type := "weight", shape := [7, 7], depth_index := 1 }] := by
  decide

/-- C10: when the multiplier list is shorter than the parameter list,
`gen_param_groups` raises nothing (it is a total function) and silently emits
exactly one group per multiplier: the result is the same as if the parameter
list had been truncated to the multiplier list's length, and (for distinct
parameters) no trailing parameter occurs in any emitted group, so the
partition of the input parameter set is silently violated. -/
theorem c10_zip_truncation (ps : List Param) (b : ℚ) (ms : List ℚ)
    (h : ms.length < ps.length) :
    (gen_param_groups ps b ms).length = ms.length ∧
    gen_param_groups ps b ms = gen_param_groups (ps.take ms.length) b ms ∧
    (ps.Nodup → ∀ k, ms.length ≤ k → ∀ hk : k < ps.length,
        ∀ g ∈ gen_param_groups ps b ms, ps.get ⟨k, hk⟩ ∉ g.params) := by
  refine ⟨?_, ?_, ?_⟩
  · simp [gen_param_groups]
    omega
  · unfold gen_param_groups
    conv_lhs => rw [zip_eq_zip_take ps ms]
  · intro hnd k hk1 hk2 g hg hmem
    unfold gen_param_groups at hg
    rcases List.mem_map.mp hg with ⟨pm, hpm, rfl⟩
    rcases List.mem_iff_get.mp hpm with ⟨i, hi⟩
    have hizip : (i : Nat) < min ps.length ms.length :=
      lt_of_lt_of_le i.isLt (le_of_eq (List.length_zip ps ms))
    have hims : (i : Nat) < ms.length := lt_of_lt_of_le hizip (min_le_right _ _)
    have hips : (i : Nat) < ps.length := lt_of_lt_of_le hizip (min_le_left _ _)
    have hfst : pm.1 = ps.get ⟨i, hips⟩ := by
      rw [← hi]
      simp [List.getElem_zip]
    rw [List.mem_singleton, hfst] at hmem
    have hki : (⟨k, hk2⟩ : Fin ps.length) = ⟨(i : Nat), hips⟩ :=
      hnd.get_inj_iff.mp hmem
    have : k = (i : Nat) := by
      exact congrArg Fin.val hki
    omega

theorem c10_zip_truncation_witness :
    (gen_param_groups
        [{ mup_type := "weight", shape := [7, 5], depth_index := 0 },
         { mup_type := "weight", shape := [7, 7], depth_index := 1 }]
        (1:ℚ) [2]).length = 1 ∧
    ∀ g ∈ gen_param_groups
        [{ mup_type := "weight", shape := [7, 5], depth_index := 0 },
         { mup_type := "weight", shape := [7, 7], depth_index := 1 }]
        (1:ℚ) [2],
      { mup_type := "weight", shape := [7, 7], depth_index := 1 } ∉ g.params := by
  have h := c10_zip_truncation
    [{ mup_type := "weight", shape := [7, 5], depth_index := 0 },
     { mup_type := "weight", shape := [7, 7], depth_index := 1 }]
    1 [2] (by norm_num)
  refine ⟨h.1, ?_⟩
  intro g hg
  exact h.2.2 (by decide) 1 (by norm_num) (by norm_num) g hg

/-- C9: the scaling engine is deterministic — running the group builders a
second time on inputs equal to the first run's (same parameter descriptors,
readout constraint, base learning rate, base weight decay and multipliers)
produces exactly the same `lr` and `weight_decay` values for every parameter;
nothing in the computation depends on hidden state. -/
theorem c9_builder_determinism (ps ps' : List Param) (dscale dscale' : Nat → ℝ)
    (rc rc' : Option String) (blr blr' bwd bwd' : ℝ) (iwd allow : Bool)
    (b b' : ℚ) (ms ms' : List ℚ)
    (hps : ps = ps') (hds : dscale = dscale') (hrc : rc = rc') (hblr : blr = blr')
    (hbwd : bwd = bwd') (hb : b = b') (hms : ms = ms') :
    build_groups ps (lr_scale_func_sgd dscale rc) blr bwd iwd allow
      = build_groups ps' (lr_scale_func_sgd dscale' rc') blr' bwd' iwd allow ∧
    gen_param_groups ps b ms = gen_param_groups ps' b' ms' := by
  subst hps hds hrc hblr hbwd hb hms
  exact ⟨rfl, rfl⟩

theorem c9_builder_determinism_witness :
    build_groups [{ mup_type := "output", shape := [11, 7], depth_index := 2 }]
        (lr_scale_func_sgd (fun _ => (1:ℝ)) none) (1/10) 0 true false
      = build_groups [{ mup_type := "output", shape := [11, 7], depth_index := 2 }]
        (lr_scale_func_sgd (fun _ => (1:ℝ)) none) (1/10) 0 true false ∧
    gen_param_groups [{ mup_type := "output", shape := [11, 7], depth_index := 2 }]
        (1:ℚ) [3]
      = gen_param_groups [{ mup_type := "output", shape := [11, 7], depth_index := 2 }]
        (1:ℚ) [3] :=
  c9_builder_determinism _ _ _ _ _ _ _ _ _ _ true false _ _ _ _
    rfl rfl rfl rfl rfl rfl rfl

/-- C8 (amended): whenever the readout constraint is a string other than
`"to_output_scale"` (so outside `{None, "to_output_scale"}`) and the
parameter collection contains at least one weight-role parameter, group
construction with the momentum-style role scale function fails with an error
rather than applying any numeric default; with no weight-role parameter
present, the invalid constraint goes undetected. -/
theorem c8_unknown_constraint_error (dscale : Nat → ℝ) (c : String)
    (blr bwd : ℝ) (iwd allow : Bool) (ps : List Param)
    (hc : c ≠ "to_output_scale") (hw : ∃ p ∈ ps, p.mup_type = "weight") :
    ∃ e, build_groups ps (lr_scale_func_sgd dscale (some c)) blr bwd iwd allow
      = .error e := by
  induction ps with
  | nil => simp at hw
  | cons p rest ih =>
    by_cases hpw : p.mup_type = "weight"
    · have hrec : recognised_role p.mup_type := Or.inl hpw
      have hfn : lr_scale_func_sgd dscale (some c) p
          = .error ("Unhandled readout constraint: " ++ c) := by
        simp [lr_scale_func_sgd, lr_scale_func_sgd_inner, hpw, hc]
      exact ⟨"Unhandled readout constraint: " ++ c, by simp [build_groups, hrec, hfn]⟩
    · have hw2 : ∃ q ∈ rest, q.mup_type = "weight" := by
        rcases hw with ⟨q, hq, hqw⟩
        rcases List.mem_cons.mp hq with rfl | hqrest
        · exact absurd hqw hpw
        · exact ⟨q, hqrest, hqw⟩
      obtain ⟨e, he⟩ := ih hw2
      cases hstep : (if recognised_role p.mup_type
          then lr_scale_func_sgd dscale (some c) p
          else if allow then .ok 1
          else .error ("unrecognized role on parameter: " ++ p.mup_type)) with
      | error e0 => exact ⟨e0, by simp [build_groups, hstep]⟩
      | ok m => exact ⟨e, by simp [build_groups, hstep, he]⟩

theorem c8_unknown_constraint_error_witness :
    ("bogus" : String) ≠ "to_output_scale" ∧
    ∃ e, build_groups [{ mup_type := "weight", shape := [7, 5], depth_index := 0 }]
        (lr_scale_func_sgd (fun _ => (1:ℝ)) (some "bogus")) (1/10) 0 true false
      = .error e := by
  refine ⟨by decide, ?_⟩
  exact c8_unknown_constraint_error (fun _ => (1:ℝ)) "bogus" (1/10) 0 true false
    [{ mup_type := "weight", shape := [7, 5], depth_index := 0 }] (by decide)
    ⟨{ mup_type := "weight", shape := [7, 5], depth_index := 0 }, by simp, rfl⟩

/-- C8 counterexample: with an invalid readout constraint but no weight-role
parameter in the collection (here a single output-role parameter), group
construction succeeds instead of failing, so the claim's unconditional
"whenever" is false on the code. -/
theorem c8_no_weight_counterexample :
    build_groups [{ mup_type := "output", shape := [11, 7], depth_index := 2 }]
        (lr_scale_func_sgd (fun _ => (1:ℝ)) (some "bogus")) 1 0 true false
      = .ok [{ params := [{ mup_type := "output", shape := [11, 7], depth_index := 2 }],
               lr := 1, weight_decay := 0 }] := by
  have hrec : recognised_role ("output" : String) := by
    unfold recognised_role
    simp
  simp [build_groups, hrec, lr_scale_func_sgd, lr_scale_func_sgd_inner,
    lr_scale_for_depth]
